import Mathlib

/-!
Shallow embedding of the Flask image-editor service
(`app.py` and `utils/image_processor.py`).

The external image library (Pillow) and the web framework are modelled as an
abstract structure `PILib` of primitives, following the contract stated in the
design document: decode, encode, parameterized enhancement operators, pixel
crop, and filename sanitization.  The on-disk upload folder is modelled as a
finite map from path strings to byte lists.  Each Flask route becomes a
pure function from a request body and a store to a JSON-style response and an
updated store.
-/

/-! ### String constants of the source -/

def upF : String := "static/uploads/"

def origP : String := "original_"

def jpegS : String := "JPEG"

def pngS : String := "PNG"

def webpS : String := "WEBP"

def jpgE : String := "jpg"

def pngE : String := "png"

def jpegE : String := "jpeg"

def webpE : String := "webp"

def dotS : String := "."

def emptyS : String := ""

def errFilenameRequired : String := "Filename required"

def errNoFile : String := "No file uploaded"

def errNoSelect : String := "No file selected"

def errInvalidType : String := "Invalid file type. Allowed: JPG, PNG, WEBP"

def errOrigNotFound : String := "Original file not found"

def errNotFound : String := "File not found"

def errWH : String := "Width and height required"

def errExc : String := "exception"

def dataUriHead : String := "data:image/png;base64,"

/-! ### The external image library -/

/-- Abstract interface of the external collaborators (the Pillow image library
and the werkzeug filename sanitizer), per the design document these are
out of scope and assumed to provide decode, encode, enhancement operators and
a pixel crop.  `encode img fmt quality optimize` returns the encoded bytes. -/
structure PILib (Img : Type) where
  width : Img → Nat
  height : Img → Nat
  modeNeedsBg : Img → Bool
  flattenWhite : Img → Img
  enhanceBrightness : Rat → Img → Img
  enhanceContrast : Rat → Img → Img
  enhanceColor : Rat → Img → Img
  enhanceSharpness : Rat → Img → Img
  cropFn : Img → Int → Int → Int → Int → Img
  encode : Img → String → Option Int → Bool → List Nat
  decode : List Nat → Option Img
  imgFormat : Img → Option String
  pyRound2 : Rat → Rat
  b64 : List Nat → String
  secureFilename : String → String

/-! ### The upload folder as a store of byte files -/

/-- The upload folder: a finite map from path strings to file bytes. -/
abbrev Store := String → Option (List Nat)

/-- Pointwise update of the store (file write when `v = some bytes`,
file removal when `v = none`). -/
def setF (st : Store) (k : String) (v : Option (List Nat)) : Store :=
  fun q => if q = k then v else st q

/-- Path of a file in the upload folder, mirroring
`os.path.join(app.config[UPLOAD_FOLDER], name)`. -/
def uploadPath (f : String) : String := upF ++ f

/-! ### Responses and metadata -/

/-- Image metadata payload built by `get_image_info`. -/
structure ImgInfo where
  width : Nat
  height : Nat
  fmt : String
  size_kb : Rat
  size_mb : Rat
deriving DecidableEq

/-- JSON response of a route: the HTTP status plus the optional payload
fields that the various routes emit. -/
structure Resp where
  status : Nat
  success : Bool := false
  error : Option String := none
  preview : Option String := none
  info : Option ImgInfo := none
  filename : Option String := none
  qualityUsed : Option Int := none
  newFilename : Option String := none
  outFormat : Option String := none
  fileBytes : Option (List Nat) := none
deriving DecidableEq

/-- Error response `jsonify(\x7b error: msg \x7d), code`. -/
def errResp (code : Nat) (msg : String) : Resp :=
  { status := code, error := some msg }

/-! ### utils/image_processor.py -/

/-- mirrors the mode normalization `if img.mode in (RGBA, LA, P): ...`
that composites onto a white RGB background. -/
def flattenIf {Img : Type} (L : PILib Img) (i : Img) : Img :=
  if L.modeNeedsBg i then L.flattenWhite i else i

/-- mirrors `get_image_info`: re-encode at the native format (default PNG)
and measure the byte length. -/
def get_image_info {Img : Type} (L : PILib Img) (i : Img) : ImgInfo :=
  let sizeBytes := (L.encode i ((L.imgFormat i).getD pngS) none false).length
  { width := L.width i
    height := L.height i
    fmt := (L.imgFormat i).getD pngS
    size_kb := L.pyRound2 ((sizeBytes : Rat) / 1024)
    size_mb := L.pyRound2 ((sizeBytes : Rat) / (1024 * 1024)) }

/-- mirrors `image_to_base64`: lossless PNG encode, base64, data-URI prefix. -/
def image_to_base64 {Img : Type} (L : PILib Img) (i : Img) : String :=
  dataUriHead ++ L.b64 (L.encode i pngS none false)

/-- ASCII uppercase of a string: models the Python str.upper call. -/
def pyUpper (s : String) : String := String.mk (s.data.map Char.toUpper)

/-- ASCII lowercase of a string: models the Python str.lower call. -/
def pyLower (s : String) : String := String.mk (s.data.map Char.toLower)

/-- mirrors `save_image`: flatten for JPEG, then encode with the
format-dependent keyword arguments (quality+optimize for JPEG/WEBP,
optimize only for PNG, bare otherwise).  Returns the bytes written. -/
def save_image_bytes {Img : Type} (L : PILib Img) (i : Img) (fmt : String) (quality : Int) :
    List Nat :=
  let i2 := if pyUpper fmt = jpegS ∧ L.modeNeedsBg i then L.flattenWhite i else i
  if pyUpper fmt = jpegS ∨ pyUpper fmt = webpS then L.encode i2 fmt (some quality) true
  else if pyUpper fmt = pngS then L.encode i2 fmt none true
  else L.encode i2 fmt none false

/-- mirrors the iterative quality search of `compress_image`:
while `current_quality > 10`, encode, stop when the encoded size
(in bytes) is at most `maxKB` kilobytes, else drop the quality by 5. -/
def compressSearch (size : Int → Nat) (maxKB : Int) (q : Int) : Int :=
  if q > 10 then
    if (size q : Int) ≤ maxKB * 1024 then q
    else compressSearch size maxKB (q - 5)
  else q
termination_by (q - 10).toNat
decreasing_by omega

/-- Number of encode passes performed by the quality search of
`compress_image` (instrumentation of the same loop as `compressSearch`). -/
def compressCount (size : Int → Nat) (maxKB : Int) (q : Int) : Nat :=
  if q > 10 then
    if (size q : Int) ≤ maxKB * 1024 then 1
    else compressCount size maxKB (q - 5) + 1
  else 0
termination_by (q - 10).toNat
decreasing_by omega

/-- The quality returned by the targeted branch of `compress_image`:
the search driven by the JPEG-encoded size of the working image. -/
def jpegQualitySearch {Img : Type} (L : PILib Img) (i : Img) (maxKB q : Int) : Int :=
  compressSearch (fun cq => (L.encode i jpegS (some cq) true).length) maxKB q

/-- Python truthiness of the optional integer `max_size_kb`
(absent or zero means no size target). -/
def isTruthyInt : Option Int → Bool
  | none => false
  | some v => v ≠ 0

/-- mirrors `compress_image`: open (decode) the current bytes, flatten,
then either run the quality search (when a truthy size target is given)
or return the requested quality unchanged.  `none` models the
`Image.open` failure propagating as an exception. -/
def compress_image {Img : Type} (L : PILib Img) (bs : List Nat) (quality : Int)
    (maxKB : Option Int) : Option (Img × Int) :=
  match L.decode bs with
  | none => none
  | some i0 =>
    let i := flattenIf L i0
    if isTruthyInt maxKB then some (i, jpegQualitySearch L i (maxKB.getD 0) quality)
    else some (i, quality)

/-- Crop box computed by `crop_image`: `(x, y, x+width, y+height)` with
left/top clamped below by 0 and right/bottom clamped above by the image
dimensions. -/
def clampBox (W H : Nat) (x y w h : Int) : Int × Int × Int × Int :=
  (max 0 x, max 0 y, min (W : Int) (x + w), min (H : Int) (y + h))

/-- mirrors `crop_image`: open, compute the clamped box, crop. -/
def crop_image_fn {Img : Type} (L : PILib Img) (bs : List Nat) (x y w h : Int) :
    Option Img :=
  (L.decode bs).map fun i =>
    let b := clampBox (L.width i) (L.height i) x y w h
    L.cropFn i b.1 b.2.1 b.2.2.1 b.2.2.2

/-- Split a character list at its last dot: mirrors
`s.rsplit(".", 1)` giving `some (before, after)`, or `none` when the
string has no dot. -/
def lastDotSplit : List Char → Option (List Char × List Char)
  | [] => none
  | c :: rest =>
    match lastDotSplit rest with
    | some (b, a) => some (c :: b, a)
    | none => if c = '.' then some ([], rest) else none

/-- mirrors `filename.rsplit(".", 1)[0]`. -/
def name_without_ext (s : String) : String :=
  match lastDotSplit s.data with
  | some (b, _) => String.mk b
  | none => s

/-- mirrors `allowed_file`: a dot is present and the lowercased final
extension is in the allow-list. -/
def allowed_file (filename : String) : Bool :=
  match lastDotSplit filename.data with
  | some (_, ext) => [pngE, jpgE, jpegE, webpE].contains (pyLower (String.mk ext))
  | none => false

/-! ### app.py routes -/

/-- Adjustment multipliers of a `preview-adjustments` request body;
`none` models an absent JSON field (defaulting to 1.0 in the code). -/
structure AdjParams where
  brightness : Option Rat := none
  contrast : Option Rat := none
  saturation : Option Rat := none
  sharpness : Option Rat := none
deriving DecidableEq

/-- The four `ImageEnhance` applications of `preview_adjustments`, in source
order, each skipped when its multiplier equals 1.0. -/
def applyAdjust {Img : Type} (L : PILib Img) (p : AdjParams) (i : Img) : Img :=
  let b := p.brightness.getD 1
  let i := if b ≠ 1 then L.enhanceBrightness b i else i
  let c := p.contrast.getD 1
  let i := if c ≠ 1 then L.enhanceContrast c i else i
  let s := p.saturation.getD 1
  let i := if s ≠ 1 then L.enhanceColor s i else i
  let sh := p.sharpness.getD 1
  if sh ≠ 1 then L.enhanceSharpness sh i else i

/-- Pure image pipeline of `preview_adjustments` on the original bytes:
decode, flatten, apply the four enhancers. -/
def adjustedOf {Img : Type} (L : PILib Img) (p : AdjParams) (bs : List Nat) : Option Img :=
  (L.decode bs).map fun i0 => applyAdjust L p (flattenIf L i0)

/-- mirrors the `/preview-adjustments` route: check the filename, read the
ORIGINAL file, decode and adjust, save the result as the working copy
(JPEG, quality 95 defaults of `save_image`), return preview plus info. -/
def preview_adjustments {Img : Type} (L : PILib Img) (st : Store)
    (filename : Option String) (p : AdjParams) : Resp × Store :=
  let fn := filename.getD emptyS
  if fn = emptyS then (errResp 400 errFilenameRequired, st)
  else
    match st (uploadPath (origP ++ fn)) with
    | none => (errResp 404 errOrigNotFound, st)
    | some bs =>
      match adjustedOf L p bs with
      | none => (errResp 500 errExc, st)
      | some i =>
        ({ status := 200, success := true
           preview := some (image_to_base64 L i)
           info := some (get_image_info L i) },
         setF st (uploadPath fn) (some (save_image_bytes L i jpegS 95)))

/-- mirrors `adjust_brightness` of image_processor.py: open, flatten,
apply the brightness enhancer (unconditionally). -/
def adjust_brightness_fn {Img : Type} (L : PILib Img) (bs : List Nat) (factor : Rat) :
    Option Img :=
  (L.decode bs).map fun i0 => L.enhanceBrightness factor (flattenIf L i0)

/-- mirrors the `/adjust-brightness` route: check the filename, read the
WORKING copy (not the original), adjust, save back over the working copy
with the `save_image` defaults, return preview plus info. -/
def brightness_ep {Img : Type} (L : PILib Img) (st : Store)
    (filename : Option String) (factor : Option Rat) : Resp × Store :=
  let fn := filename.getD emptyS
  let f := factor.getD 1
  if fn = emptyS then (errResp 400 errFilenameRequired, st)
  else
    match st (uploadPath fn) with
    | none => (errResp 404 errNotFound, st)
    | some bs =>
      match adjust_brightness_fn L bs f with
      | none => (errResp 500 errExc, st)
      | some i =>
        ({ status := 200, success := true
           preview := some (image_to_base64 L i)
           info := some (get_image_info L i) },
         setF st (uploadPath fn) (some (save_image_bytes L i jpegS 95)))

/-- mirrors the extension table of the `/compress` route
(`format_to_ext`, defaulting to jpg). -/
def format_to_ext (f : String) : String :=
  if f = jpegS then jpgE
  else if f = pngS then pngE
  else if f = webpS then webpE
  else jpgE

/-- The file-identity bookkeeping of the `/compress` route after saving at
the new path: when the filename changed, remove the old working file and
rename the original backup (when present) to the new identity. -/
def compressFinalize (st : Store) (fn newFn : String) (bytes : List Nat) : Store :=
  let st1 := setF st (uploadPath newFn) (some bytes)
  if newFn = fn then st1
  else
    let st2 := setF st1 (uploadPath fn) none
    match st2 (uploadPath (origP ++ fn)) with
    | none => st2
    | some obs =>
      setF (setF st2 (uploadPath (origP ++ fn)) none)
        (uploadPath (origP ++ newFn)) (some obs)

/-- mirrors the `/compress` route: check the filename, read the working copy,
run `compress_image` (with the size target only when truthy), save the result
at the format-derived filename, finalize the file identity, and return
preview, info, quality used, new filename and format. -/
def compress_ep {Img : Type} (L : PILib Img) (st : Store) (filename : Option String)
    (quality : Option Int) (maxSizeKB : Option Int) (outputFormat : Option String) :
    Resp × Store :=
  let fn := filename.getD emptyS
  let q : Int := quality.getD 85
  let fmt := pyUpper (outputFormat.getD jpegS)
  if fn = emptyS then (errResp 400 errFilenameRequired, st)
  else
    match st (uploadPath fn) with
    | none => (errResp 404 errNotFound, st)
    | some bs =>
      match compress_image L bs q (if isTruthyInt maxSizeKB then maxSizeKB else none) with
      | none => (errResp 500 errExc, st)
      | some (i, qUsed) =>
        let newFn := name_without_ext fn ++ dotS ++ format_to_ext fmt
        let st2 := compressFinalize st fn newFn (save_image_bytes L i fmt qUsed)
        ({ status := 200, success := true
           preview := some (image_to_base64 L i)
           info := some (get_image_info L i)
           qualityUsed := some qUsed
           newFilename := some newFn
           outFormat := some fmt }, st2)

/-- mirrors the `/crop` route.  Source order: the `int(...)` conversions of
width and height run first and raise on a missing field (caught as a 500),
then the filename check (400), then the zero width/height check (400), then
the existence check (404), then crop and save with the `save_image`
defaults. -/
def crop_ep {Img : Type} (L : PILib Img) (st : Store) (filename : Option String)
    (x y : Option Int) (w h : Option Int) : Resp × Store :=
  match w with
  | none => (errResp 500 errExc, st)
  | some wv =>
    match h with
    | none => (errResp 500 errExc, st)
    | some hv =>
      let xv := x.getD 0
      let yv := y.getD 0
      let fn := filename.getD emptyS
      if fn = emptyS then (errResp 400 errFilenameRequired, st)
      else if wv = 0 ∨ hv = 0 then (errResp 400 errWH, st)
      else
        match st (uploadPath fn) with
        | none => (errResp 404 errNotFound, st)
        | some bs =>
          match crop_image_fn L bs xv yv wv hv with
          | none => (errResp 500 errExc, st)
          | some i =>
            ({ status := 200, success := true
               preview := some (image_to_base64 L i)
               info := some (get_image_info L i) },
             setF st (uploadPath fn) (some (save_image_bytes L i jpegS 95)))

/-- mirrors the `/download/<filename>` route: 404 when the file is absent,
otherwise send the file bytes. -/
def download_ep (st : Store) (filename : String) : Resp :=
  match st (uploadPath filename) with
  | none => errResp 404 errNotFound
  | some bs => { status := 200, success := true, fileBytes := some bs }

/-- mirrors the `/reset/<filename>` route: remove the working copy and the
original backup (each only when present, which the map update models), and
report success. -/
def reset_ep (st : Store) (filename : String) : Resp × Store :=
  let st1 := setF st (uploadPath filename) none
  let st2 := setF st1 (uploadPath (origP ++ filename)) none
  ({ status := 200, success := true }, st2)

/-- mirrors the `/upload` route: presence, non-empty filename and extension
checks, then save the stream under the fresh uuid name, reset the stream and
save it again under the `original_` name, then open the saved file for the
preview and metadata.  The rsplit of a sanitized name with no dot raises
(caught as a 500) before any file is written. -/
def upload_ep {Img : Type} (L : PILib Img) (st : Store) (hasFile : Bool)
    (origName : String) (content : List Nat) (uuid : String) : Resp × Store :=
  if !hasFile then (errResp 400 errNoFile, st)
  else if origName = emptyS then (errResp 400 errNoSelect, st)
  else if !allowed_file origName then (errResp 400 errInvalidType, st)
  else
    match lastDotSplit (L.secureFilename origName).data with
    | none => (errResp 500 errExc, st)
    | some (_, extC) =>
      let unique := uuid ++ dotS ++ pyLower (String.mk extC)
      let st1 := setF st (uploadPath unique) (some content)
      let st2 := setF st1 (uploadPath (origP ++ unique)) (some content)
      match L.decode content with
      | none => (errResp 500 errExc, st2)
      | some i =>
        ({ status := 200, success := true
           filename := some unique
           preview := some (image_to_base64 L i)
           info := some (get_image_info L i) }, st2)

/-! ### Concrete instances used by the closed theorems -/

/-- A small concrete image library over `Nat` images: decoding reads the
first byte, encoding writes the single pixel value back, and the brightness
operator multiplies by the integer part of the factor. -/
def NatLib : PILib Nat :=
  { width := fun n => n
    height := fun n => n
    modeNeedsBg := fun _ => false
    flattenWhite := fun n => n
    enhanceBrightness := fun f n => f.num.toNat * n
    enhanceContrast := fun _ n => n
    enhanceColor := fun _ n => n
    enhanceSharpness := fun _ n => n
    cropFn := fun n _ _ _ _ => n
    encode := fun n _ _ _ => [n]
    decode := fun bs => bs.head?
    imgFormat := fun _ => none
    pyRound2 := fun q => q
    b64 := fun bs => toString bs.length
    secureFilename := fun s => s }

/-- A concrete library whose encoder always emits 5000 bytes, used to drive
the compression loop to its floor. -/
def BigLib : PILib Nat :=
  { NatLib with
    encode := fun _ _ _ _ => List.replicate 5000 0
    decode := fun _ => some 0 }

/-- Concrete session filename used by closed theorems. -/
def aJpg : String := "a.jpg"

/-- Concrete png-named session filename used by closed theorems. -/
def aPng : String := "a.png"

/-- A store holding the working copy of `a.jpg` with a single pixel. -/
def stCur : Store := setF (fun _ => none) (uploadPath aJpg) (some [5])

/-- A store holding the original backup of `a.jpg` with a single pixel. -/
def stOrig : Store := setF (fun _ => none) (uploadPath (origP ++ aJpg)) (some [5])

/-- A store holding both copies of `a.png` with a single pixel. -/
def stBoth : Store :=
  setF (setF (fun _ => none) (uploadPath aPng) (some [5]))
    (uploadPath (origP ++ aPng)) (some [5])

/-! ### Store and path lemmas -/

theorem setF_self (st : Store) (k : String) (v : Option (List Nat)) :
    setF st k v k = v := by
  simp [setF]

theorem setF_ne (st : Store) (k : String) (v : Option (List Nat)) (q : String)
    (h : q ≠ k) : setF st k v q = st q := by
  simp [setF, h]

theorem setF_setF (st : Store) (k : String) (a b : Option (List Nat)) :
    setF (setF st k a) k b = setF st k b := by
  funext q
  by_cases h : q = k <;> simp [setF, h]

theorem uploadPath_inj {a b : String} (h : uploadPath a = uploadPath b) : a = b := by
  have hd := congrArg String.data h
  simp only [uploadPath, String.data_append] at hd
  exact String.ext (List.append_cancel_left hd)

theorem origP_append_ne (f : String) : origP ++ f ≠ f := by
  intro h
  have hlen := congrArg String.length h
  rw [String.length_append] at hlen
  have h9 : origP.length = 9 := rfl
  omega

theorem pathOrig_ne (f : String) : uploadPath (origP ++ f) ≠ uploadPath f :=
  fun h => origP_append_ne f (uploadPath_inj h)

/-! ### Rebasing of preview-adjustments -/

theorem preview_rebase {Img : Type} (L : PILib Img) (st : Store) (fn : Option String)
    (pA pB : AdjParams) :
    preview_adjustments L (preview_adjustments L st fn pA).2 fn pB
      = preview_adjustments L st fn pB := by
  unfold preview_adjustments
  by_cases hf : fn.getD emptyS = emptyS
  · simp [hf]
  · have hpath := pathOrig_ne (fn.getD emptyS)
    cases horig : st (uploadPath (origP ++ fn.getD emptyS)) with
    | none => simp [hf, horig]
    | some bs =>
      cases hdec : L.decode bs with
      | none => simp [hf, horig, adjustedOf, hdec]
      | some i0 =>
        simp [hf, horig, adjustedOf, hdec, setF, hpath, setF_setF]

/-! ### Compression loop lemmas -/

theorem compressSearch_le_or (size : Int → Nat) (maxKB : Int) :
    ∀ (n : Nat) (q : Int), (q - 10).toNat ≤ n →
      ((size (compressSearch size maxKB q) : Int) ≤ maxKB * 1024
        ∨ compressSearch size maxKB q ≤ 10) := by
  intro n
  induction n with
  | zero =>
    intro q hq
    rw [compressSearch, if_neg (by omega)]
    right
    omega
  | succ n ih =>
    intro q hq
    by_cases hgt : q > 10
    · by_cases hs : (size q : Int) ≤ maxKB * 1024
      · rw [compressSearch, if_pos hgt, if_pos hs]
        exact Or.inl hs
      · rw [compressSearch, if_pos hgt, if_neg hs]
        exact ih (q - 5) (by omega)
    · rw [compressSearch, if_neg hgt]
      right
      omega

theorem compressCount_le (size : Int → Nat) (maxKB : Int) :
    ∀ (n : Nat) (q : Int), (q - 10).toNat ≤ n →
      compressCount size maxKB q ≤ ((q - 10).toNat + 4) / 5 := by
  intro n
  induction n with
  | zero =>
    intro q hq
    rw [compressCount, if_neg (by omega)]
    exact Nat.zero_le _
  | succ n ih =>
    intro q hq
    by_cases hgt : q > 10
    · by_cases hs : (size q : Int) ≤ maxKB * 1024
      · rw [compressCount, if_pos hgt, if_pos hs]
        omega
      · rw [compressCount, if_pos hgt, if_neg hs]
        have := ih (q - 5) (by omega)
        omega
    · rw [compressCount, if_neg hgt]
      exact Nat.zero_le _

/-! ### Filename length lemmas -/

theorem lastDotSplit_len :
    ∀ (cs : List Char) (b a : List Char), lastDotSplit cs = some (b, a) →
      b.length + 1 + a.length = cs.length := by
  intro cs
  induction cs with
  | nil => intro b a h; simp [lastDotSplit] at h
  | cons c rest ih =>
    intro b a h
    cases hr : lastDotSplit rest with
    | some p =>
      obtain ⟨br, ar⟩ := p
      rw [lastDotSplit, hr] at h
      simp at h
      obtain ⟨hb, ha⟩ := h
      have := ih br ar hr
      subst hb ha
      simp
      omega
    | none =>
      rw [lastDotSplit, hr] at h
      by_cases hc : c = '.'
      · simp [hc] at h
        obtain ⟨hb, ha⟩ := h
        subst hb ha
        simp
        omega
      · simp [hc] at h

theorem nwe_len (s : String) : (name_without_ext s).length ≤ s.length := by
  cases h : lastDotSplit s.data with
  | none => simp [name_without_ext, h]
  | some p =>
    obtain ⟨b, a⟩ := p
    have hl := lastDotSplit_len s.data b a h
    have h1 : (String.mk b).length = b.length := rfl
    have h2 : s.length = s.data.length := rfl
    simp only [name_without_ext, h]
    omega

theorem fte_len (f : String) : (format_to_ext f).length ≤ 4 := by
  unfold format_to_ext
  split_ifs <;> decide

theorem origNe_newFn (fn fmt : String) :
    origP ++ fn ≠ name_without_ext fn ++ dotS ++ format_to_ext fmt := by
  intro h
  have hl := congrArg String.length h
  rw [String.length_append, String.length_append, String.length_append] at hl
  have h9 : origP.length = 9 := rfl
  have hd : dotS.length = 1 := rfl
  have hn := nwe_len fn
  have hf := fte_len fmt
  omega

theorem pathNe {a b : String} (h : a ≠ b) : uploadPath a ≠ uploadPath b :=
  fun hh => h (uploadPath_inj hh)

theorem compressFinalize_at_new (st : Store) (fn newFn : String) (bytes : List Nat)
    (h9 : origP ++ fn ≠ newFn) (h2 : origP ++ newFn ≠ newFn) :
    compressFinalize st fn newFn bytes (uploadPath newFn) = some bytes := by
  unfold compressFinalize
  by_cases he : newFn = fn
  · simp [he, setF_self]
  · have hA : uploadPath newFn ≠ uploadPath fn := pathNe he
    have hB : uploadPath newFn ≠ uploadPath (origP ++ fn) := Ne.symm (pathNe h9)
    have hC : uploadPath newFn ≠ uploadPath (origP ++ newFn) := Ne.symm (pathNe h2)
    simp only [if_neg he]
    cases hob :
        (setF (setF st (uploadPath newFn) (some bytes)) (uploadPath fn) none)
          (uploadPath (origP ++ fn)) with
    | none => simp [hob, setF, hA]
    | some obs => simp [hob, setF, hA, hB, hC]

/-! ### Claim theorems -/

/-- C1 counterexample: with a base quality of 13 and a target of 1 KB against
an encoder that always emits 5000 bytes, the compress operation returns
quality 8: the encoded size at 8 exceeds the target and 8 is not 10, so the
claimed disjunction (size within target, or quality exactly 10) fails. -/
theorem c1_counterexample :
    compress_image BigLib [0] 13 (some 1) = some (0, 8) ∧
    ¬ (((BigLib.encode 0 jpegS (some 8) true).length : Int) ≤ 1 * 1024
        ∨ (8 : Int) = 10) := by
  have hsz : ∀ cq : Int, ((BigLib.encode 0 jpegS (some cq) true).length : Int) = 5000 := by
    intro cq
    show ((List.replicate 5000 0).length : Int) = 5000
    rw [List.length_replicate]
    norm_num
  have h13 : jpegQualitySearch BigLib 0 1 13 = 8 := by
    show compressSearch (fun cq => (BigLib.encode 0 jpegS (some cq) true).length) 1 13 = 8
    rw [compressSearch, if_pos (by norm_num), if_neg (by rw [hsz]; norm_num),
      compressSearch, if_neg (by norm_num)]
    norm_num
  constructor
  · show some ((0 : Nat), jpegQualitySearch BigLib 0 1 13) = some (0, 8)
    rw [h13]
  · rw [hsz]
    norm_num

/-- C1 (amended): for every image library, image, base quality and truthy
target size, the quality returned by the size-targeted search of
`compress_image` either meets the byte budget (encoded JPEG size at the
returned quality is at most the target in KB) or lies at or below the floor
of 10 (the loop exits the floor region at the first value of the descending
sequence that is at most 10, which equals 10 only when the base quality is
congruent to it; a base quality already at most 10 is returned unchanged). -/
theorem c1_compress_target_amended {Img : Type} (L : PILib Img) (i : Img) (maxKB q : Int) :
    ((L.encode i jpegS (some (jpegQualitySearch L i maxKB q)) true).length : Int)
        ≤ maxKB * 1024
      ∨ jpegQualitySearch L i maxKB q ≤ 10 :=
  compressSearch_le_or (fun cq => (L.encode i jpegS (some cq) true).length) maxKB
    ((q - 10).toNat) q le_rfl

/-- C2 counterexample: the adjust-brightness route reads and overwrites the
WORKING copy, so applying brightness 2.0 twice leaves a different Current
file than applying it once: the claim that every adjustment operation,
including adjust-brightness, rebases on the Original fails. -/
theorem c2_counterexample :
    ((brightness_ep NatLib
        (brightness_ep NatLib stCur (some aJpg) (some 2)).2 (some aJpg) (some 2)).2
        (uploadPath aJpg))
      ≠ ((brightness_ep NatLib stCur (some aJpg) (some 2)).2 (uploadPath aJpg)) := by
  decide

/-- C2 (amended): for the preview-adjustments route the claim holds in full:
performing adjustment A and then adjustment B (any parameter sets, same
session) produces exactly the same response and the same store as performing
only B, because the route re-reads the untouched Original; the
adjust-brightness route, by contrast, reads the Current copy and is
cumulative (see the counterexample). -/
theorem c2_adjustments_rebase_amended {Img : Type} (L : PILib Img) (st : Store)
    (fn : Option String) (pA pB : AdjParams) :
    preview_adjustments L (preview_adjustments L st fn pA).2 fn pB
      = preview_adjustments L st fn pB :=
  preview_rebase L st fn pA pB

/-- C3 counterexample: a crop request with the width field missing (filename
present, file present, height present) is answered with status 500 (the
`int(None)` conversion raises, caught by the generic handler), not with a
400-class validation error as the claim states. -/
theorem c3_counterexample :
    (crop_ep NatLib stCur (some aJpg) (some 0) (some 0) none (some 10)).1.status = 500 ∧
    (500 : Nat) ≠ 400 := by
  constructor
  · rfl
  · decide

/-- C3 (amended): a crop request with a ZERO width or height (and a filename)
is rejected with the 400 validation error and leaves the store untouched; a
crop request with a MISSING width or height fails with a 500 processing
error (again leaving the store untouched).  In neither case is the request
silently treated as a no-op. -/
theorem c3_crop_validation_amended {Img : Type} (L : PILib Img) (st : Store)
    (fn : String) (x y : Option Int) (w h : Int) (w2 h2 : Option Int)
    (hf : fn ≠ emptyS) (hz : w = 0 ∨ h = 0) :
    ((crop_ep L st (some fn) x y (some w) (some h)).1 = errResp 400 errWH ∧
     (crop_ep L st (some fn) x y (some w) (some h)).2 = st) ∧
    ((crop_ep L st (some fn) x y none h2).1 = errResp 500 errExc ∧
     (crop_ep L st (some fn) x y none h2).2 = st) ∧
    ((crop_ep L st (some fn) x y w2 none).1 = errResp 500 errExc ∧
     (crop_ep L st (some fn) x y w2 none).2 = st) := by
  refine ⟨⟨?_, ?_⟩, ⟨?_, ?_⟩, ⟨?_, ?_⟩⟩
  · simp [crop_ep, hf, hz]
  · simp [crop_ep, hf, hz]
  · rfl
  · rfl
  · cases w2 <;> rfl
  · cases w2 <;> rfl

/-- C3 witness: the amended theorem applied at a concrete request with
width 0 against an existing session. -/
theorem c3_witness :
    (aJpg ≠ emptyS ∧ ((0 : Int) = 0 ∨ (10 : Int) = 0)) ∧
    (crop_ep NatLib stCur (some aJpg) (some 0) (some 0) (some 0) (some 10)).1
      = errResp 400 errWH :=
  ⟨⟨by decide, Or.inl rfl⟩,
    (c3_crop_validation_amended NatLib stCur aJpg (some 0) (some 0) 0 10 none none
      (by decide) (Or.inl rfl)).1.1⟩

/-- C4 counterexample: on a 100 by 100 image, the request x=200, y=0,
width=50, height=50 produces the clamped box (200, 0, 100, 50): its left
coordinate 200 is NOT within the image bounds [0,100] (and exceeds the right
coordinate 100), so the rectangle is not clamped into the image bounds as
the claim states, and the inverted box is handed to the library crop. -/
theorem c4_counterexample :
    clampBox 100 100 200 0 50 50 = (200, 0, 100, 50) ∧ ¬ ((200 : Int) ≤ 100) := by
  constructor
  · decide
  · decide

/-- C4 (amended): the crop box of `crop_image` has its left and top clamped
below by 0 and its right and bottom clamped above by the image width and
height; a rectangle that already lies within the bounds passes through
unchanged (and the operation then succeeds).  Nothing clamps the left/top
from above or the right/bottom from below, so out-of-range requests can
yield an inverted box (see the counterexample) on which the library crop
fails and the route reports a processing error. -/
theorem c4_crop_clamp_amended (W H : Nat) (x y w h : Int) :
    0 ≤ (clampBox W H x y w h).1 ∧ 0 ≤ (clampBox W H x y w h).2.1 ∧
    (clampBox W H x y w h).2.2.1 ≤ (W : Int) ∧ (clampBox W H x y w h).2.2.2 ≤ (H : Int) ∧
    (0 ≤ x → 0 ≤ y → x + w ≤ (W : Int) → y + h ≤ (H : Int) →
      clampBox W H x y w h = (x, y, x + w, y + h)) := by
  simp only [clampBox]
  refine ⟨le_max_left _ _, le_max_left _ _, min_le_left _ _, min_le_left _ _, ?_⟩
  intro hx hy hw hh
  rw [max_eq_right hx, max_eq_right hy, min_eq_right hw, min_eq_right hh]

/-- C4 witness: the amended theorem applied at a concrete in-bounds
rectangle. -/
theorem c4_witness :
    clampBox 100 100 5 5 10 10 = (5, 5, 15, 15) :=
  (c4_crop_clamp_amended 100 100 5 5 10 10).2.2.2.2
    (by decide) (by decide) (by decide) (by decide)

/-- C5: for a session whose Original file exists, calling preview-adjustments
twice in a row with identical parameters returns an identical response (the
preview string and all metadata are byte-identical), because both calls
derive from the same untouched Original: the intervening write of the
Current copy does not touch the Original path. -/
theorem c5_preview_idempotent {Img : Type} (L : PILib Img) (st : Store) (fn : String)
    (p : AdjParams) (bs : List Nat)
    (horig : st (uploadPath (origP ++ fn)) = some bs) :
    (preview_adjustments L (preview_adjustments L st (some fn) p).2 (some fn) p).1
      = (preview_adjustments L st (some fn) p).1 :=
  congrArg Prod.fst (preview_rebase L st (some fn) p p)

/-- C5 witness: the theorem applied at a concrete session with an existing
Original. -/
theorem c5_witness :
    stOrig (uploadPath (origP ++ aJpg)) = some [5] ∧
    (preview_adjustments NatLib
        (preview_adjustments NatLib stOrig (some aJpg) {}).2 (some aJpg) {}).1
      = (preview_adjustments NatLib stOrig (some aJpg) {}).1 :=
  ⟨by decide, c5_preview_idempotent NatLib stOrig aJpg {} [5] (by decide)⟩

/-- Helper: the upper-casing of the JPEG format literal is itself. -/
theorem pyUpper_jpeg : pyUpper jpegS = jpegS := rfl

/-- Concrete uuid used by closed theorems. -/
def uuidS : String := "u1"

/-- Concrete extension characters of the png witness. -/
def extPng : List Char := ['p', 'n', 'g']

/-- Concrete base characters of the png witness. -/
def baseA : List Char := ['a']

/-- C6: a compress request without a size target succeeds with the returned
quality-used equal to the requested quality, and the new Current file holds
exactly one encoding of the (flattened) image performed at the requested
quality via the save routine. -/
theorem c6_compress_no_target {Img : Type} (L : PILib Img) (st : Store) (fn : String)
    (q : Int) (ofmt : Option String) (bs : List Nat) (i0 : Img)
    (hf : fn ≠ emptyS) (hcur : st (uploadPath fn) = some bs)
    (hdec : L.decode bs = some i0) :
    (compress_ep L st (some fn) (some q) none ofmt).1.status = 200 ∧
    (compress_ep L st (some fn) (some q) none ofmt).1.qualityUsed = some q ∧
    (compress_ep L st (some fn) (some q) none ofmt).2
        (uploadPath (name_without_ext fn ++ dotS ++ format_to_ext (pyUpper (ofmt.getD jpegS))))
      = some (save_image_bytes L (flattenIf L i0) (pyUpper (ofmt.getD jpegS)) q) := by
  have hci : compress_image L bs q none = some (flattenIf L i0, q) := by
    simp [compress_image, hdec, isTruthyInt]
  have hlook := compressFinalize_at_new st fn
      (name_without_ext fn ++ dotS ++ format_to_ext (pyUpper (ofmt.getD jpegS)))
      (save_image_bytes L (flattenIf L i0) (pyUpper (ofmt.getD jpegS)) q)
      (origNe_newFn fn (pyUpper (ofmt.getD jpegS)))
      (origP_append_ne _)
  refine ⟨?_, ?_, ?_⟩ <;>
    simp [compress_ep, hf, hcur, hci, isTruthyInt, hlook]

/-- C6 witness: the theorem applied at a concrete session and quality 77. -/
theorem c6_witness :
    (aJpg ≠ emptyS ∧ stCur (uploadPath aJpg) = some [5] ∧ NatLib.decode [5] = some 5) ∧
    (compress_ep NatLib stCur (some aJpg) (some 77) none none).1.qualityUsed = some 77 :=
  ⟨⟨by decide, by decide, by decide⟩,
    (c6_compress_no_target NatLib stCur aJpg 77 none [5] 5
      (by decide) (by decide) (by decide)).2.1⟩

/-- C7: the quality search of `compress_image` terminates with the number of
encode passes bounded by the ceiling of (q0 - 10)/5, which is 15 at the
default base quality 85 (and at most 18 over the documented 1..100 quality
range): the quality strictly decreases by 5 per pass down to the floor 10. -/
theorem c7_compress_loop_bound (size : Int → Nat) (maxKB q : Int) :
    compressCount size maxKB q ≤ ((q - 10).toNat + 4) / 5 ∧
    compressCount size maxKB 85 ≤ 15 := by
  constructor
  · exact compressCount_le size maxKB ((q - 10).toNat) q le_rfl
  · have h := compressCount_le size maxKB ((85 - 10 : Int)).toNat 85 le_rfl
    omega

/-- C8: reset removes both the working copy and the original backup and
reports success; resetting again is a no-op returning the same success and
state; after a reset, download, preview-adjustments and adjust-brightness on
that session all answer 404. -/
theorem c8_reset_removes {Img : Type} (L : PILib Img) (st : Store) (fn : String)
    (p : AdjParams) (f : Option Rat) (hf : fn ≠ emptyS) :
    (reset_ep st fn).1.status = 200 ∧ (reset_ep st fn).1.success = true ∧
    (reset_ep st fn).2 (uploadPath fn) = none ∧
    (reset_ep st fn).2 (uploadPath (origP ++ fn)) = none ∧
    reset_ep (reset_ep st fn).2 fn = reset_ep st fn ∧
    (download_ep (reset_ep st fn).2 fn).status = 404 ∧
    (preview_adjustments L (reset_ep st fn).2 (some fn) p).1.status = 404 ∧
    (brightness_ep L (reset_ep st fn).2 (some fn) f).1.status = 404 := by
  have hON : uploadPath fn ≠ uploadPath (origP ++ fn) := Ne.symm (pathOrig_ne fn)
  have hcur : (reset_ep st fn).2 (uploadPath fn) = none := by
    simp [reset_ep, setF, hON]
  have horg : (reset_ep st fn).2 (uploadPath (origP ++ fn)) = none := by
    simp [reset_ep, setF]
  refine ⟨rfl, rfl, hcur, horg, ?_, ?_, ?_, ?_⟩
  · have hst : (reset_ep (reset_ep st fn).2 fn).2 = (reset_ep st fn).2 := by
      funext k
      by_cases h1 : k = uploadPath (origP ++ fn) <;> by_cases h2 : k = uploadPath fn <;>
        simp [reset_ep, setF, h1, h2]
    exact Prod.ext rfl hst
  · simp [download_ep, hcur, errResp]
  · simp [preview_adjustments, hf, horg, errResp]
  · simp [brightness_ep, hf, hcur, errResp]

/-- C8 witness: the theorem applied at a concrete session. -/
theorem c8_witness :
    aJpg ≠ emptyS ∧ (reset_ep stCur aJpg).2 (uploadPath aJpg) = none :=
  ⟨by decide, (c8_reset_removes NatLib stCur aJpg {} none (by decide)).2.2.1⟩

/-- C9: a successful crop writes the new Current through the save routine
with its default arguments, JPEG format at quality 95 (`save_image_bytes
L i jpegS 95`), and so does a successful adjust-brightness, for EVERY
session filename (in particular one with a png extension, see the witness);
the third conjunct makes the resulting bytes explicit: one JPEG encode at
quality 95 of the (JPEG-flattened) image. -/
theorem c9_save_defaults {Img : Type} (L : PILib Img) (st : Store) (fn : String)
    (x y w h : Int) (bs : List Nat) (ci i0 : Img) (f : Option Rat)
    (hf : fn ≠ emptyS) (hwh : ¬(w = 0 ∨ h = 0))
    (hcur : st (uploadPath fn) = some bs)
    (hcrop : crop_image_fn L bs x y w h = some ci)
    (hdec : L.decode bs = some i0) :
    (crop_ep L st (some fn) (some x) (some y) (some w) (some h)).2 (uploadPath fn)
      = some (save_image_bytes L ci jpegS 95) ∧
    (brightness_ep L st (some fn) f).2 (uploadPath fn)
      = some (save_image_bytes L (L.enhanceBrightness (f.getD 1) (flattenIf L i0)) jpegS 95) ∧
    save_image_bytes L ci jpegS 95
      = L.encode (if L.modeNeedsBg ci then L.flattenWhite ci else ci) jpegS (some 95) true := by
  refine ⟨?_, ?_, ?_⟩
  · simp [crop_ep, hf, hwh, hcur, hcrop, setF_self]
  · simp [brightness_ep, hf, hcur, adjust_brightness_fn, hdec, setF_self]
  · simp [save_image_bytes, pyUpper_jpeg]

/-- C9 witness: the theorem applied to a session whose filename ends in
png: after the crop, its Current file holds JPEG-encoded bytes. -/
theorem c9_witness :
    aPng ≠ emptyS ∧
    (crop_ep NatLib stBoth (some aPng) (some 0) (some 0) (some 10) (some 10)).2
        (uploadPath aPng)
      = some (save_image_bytes NatLib 5 jpegS 95) :=
  ⟨by decide,
    (c9_save_defaults NatLib stBoth aPng 0 0 10 10 [5] 5 5 none
      (by decide) (by decide) (by decide) (by decide) (by decide)).1⟩

/-- C10: a successful upload stores the same byte content under both the
fresh session filename and its `original_` backup (the stream is saved
twice), and reports that filename with status 200. -/
theorem c10_upload {Img : Type} (L : PILib Img) (st : Store) (nm : String)
    (content : List Nat) (uuid : String) (bC extC : List Char) (i : Img)
    (hn : nm ≠ emptyS) (ha : allowed_file nm = true)
    (hs : lastDotSplit (L.secureFilename nm).data = some (bC, extC))
    (hd : L.decode content = some i) :
    (upload_ep L st true nm content uuid).1.status = 200 ∧
    (upload_ep L st true nm content uuid).1.filename
      = some (uuid ++ dotS ++ pyLower (String.mk extC)) ∧
    (upload_ep L st true nm content uuid).2
        (uploadPath (uuid ++ dotS ++ pyLower (String.mk extC))) = some content ∧
    (upload_ep L st true nm content uuid).2
        (uploadPath (origP ++ (uuid ++ dotS ++ pyLower (String.mk extC)))) = some content := by
  have hne := pathOrig_ne (uuid ++ dotS ++ pyLower (String.mk extC))
  refine ⟨?_, ?_, ?_, ?_⟩ <;>
    simp [upload_ep, hn, ha, hs, hd, setF, hne, Ne.symm hne]

/-- C10 witness: the theorem applied to a concrete upload of `a.png`. -/
theorem c10_witness :
    (aPng ≠ emptyS ∧ allowed_file aPng = true) ∧
    (upload_ep NatLib (fun _ => none) true aPng [5] uuidS).2
        (uploadPath (uuidS ++ dotS ++ pyLower (String.mk extPng))) = some [5] :=
  ⟨⟨by decide, by decide⟩,
    (c10_upload NatLib (fun _ => none) aPng [5] uuidS baseA extPng 5
      (by decide) (by decide) (by decide) (by decide)).2.2.1⟩
